import Mathlib

/-!
Verification of the client-side progress synchronization engine of the
ironsite-spatial frontend: the zustand pipeline store
(`frontend/src/store/pipeline.ts`), the WebSocket/poll reconciliation hook
(`usePipelineWs.ts`, containing `syncStatus`) and the message handler.

The TypeScript source is shallowly embedded: the store is a Lean structure,
actions are pure functions `Store → Store`, TS optional fields become
`Option`, and JS object spread (where a key present with value `undefined`
still overwrites) is modelled with nested `Option` in partial updates.
The asynchronous event loop (poll ticks, fetch resolutions, stagger-delay
resolutions, WebSocket messages, reset) is modelled as an explicit
small-step transition system over a world holding the store and the set of
in-flight reconciliation passes.
-/

namespace PipelineSync

/-- The nine pipeline stages, `STEP_ORDER` in `store/pipeline.ts`. -/
inductive StepName
  | preprocess
  | dino
  | tracking
  | reconstruction
  | scene_graphs
  | graph
  | events
  | memory
  | vlm
deriving DecidableEq, Fintype

/-- Fixed pipeline order (`STEP_ORDER`). -/
def STEP_ORDER : List StepName :=
  [.preprocess, .dino, .tracking, .reconstruction, .scene_graphs,
   .graph, .events, .memory, .vlm]

/-- `StepStatusType = 'pending' | 'started' | 'progress' | 'completed' | 'error'`
(`api/types.ts`). -/
inductive StepStatusType
  | pending
  | started
  | progress
  | completed
  | error
deriving DecidableEq

/-- `pipelineStatus: 'idle' | 'running' | 'completed' | 'error'` in the store. -/
inductive PipelineStatus
  | idle
  | running
  | completed
  | error
deriving DecidableEq

/-- Opaque stand-in for `Record<string, unknown>` metadata payloads; the sync
core stores them but never inspects them. -/
structure Metadata where
  val : Nat
deriving DecidableEq

/-- Opaque stand-in for the fetched-data cache payloads (`PreprocessData`,
`DinoDetectionData`, ...); rendering data the sync core never inspects. -/
structure CacheData where
  val : Nat
deriving DecidableEq

/-- `StepState` from `store/pipeline.ts`: per-stage record. `metadata` and
`error` are optional fields; `progress` is a JS number, embedded as `Rat`
(the core only stores and compares it, no float arithmetic occurs). -/
structure StepState where
  status : StepStatusType
  progress : Rat
  metadata : Option Metadata
  error : Option String
deriving DecidableEq

/-- A `Partial<StepState>` as produced by the call sites. `none` means the key
is absent from the JS object (the old value is retained by the spread);
for the optional fields `metadata` and `error`, `some none` means the key is
present with value `undefined` (the spread overwrites with `undefined`). -/
structure StepUpdate where
  status : Option StepStatusType
  progress : Option Rat
  metadata : Option (Option Metadata)
  error : Option (Option String)
deriving DecidableEq

/-- JS object spread `{ ...current, ...update }`: a key present in `update`
overwrites, an absent key retains the current value. -/
def StepState.merge (cur : StepState) (u : StepUpdate) : StepState :=
  { status := u.status.getD cur.status
    progress := u.progress.getD cur.progress
    metadata := u.metadata.getD cur.metadata
    error := u.error.getD cur.error }

/-- `initialSteps`: every stage `{ status: 'pending', progress: 0 }`. -/
def initialSteps : StepName → StepState :=
  fun _ => { status := .pending, progress := 0, metadata := none, error := none }

/-- The zustand `PipelineStore` state (`store/pipeline.ts`): connection state,
per-stage records and the fetched-data cache. -/
structure Store where
  runId : Option String
  connected : Bool
  pipelineStatus : PipelineStatus
  steps : StepName → StepState
  preprocessData : Option CacheData
  dinoData : Option CacheData
  rawDetections : Option CacheData
  graphData : Option CacheData
  detections : Option CacheData
  trajectoryData : Option CacheData
  dashboardData : Option CacheData
  sceneGraphs : Option CacheData
  eventsData : Option CacheData
  vlmData : Option CacheData

/-- The store's initial state. -/
def initialStore : Store :=
  { runId := none
    connected := false
    pipelineStatus := .idle
    steps := initialSteps
    preprocessData := none
    dinoData := none
    rawDetections := none
    graphData := none
    detections := none
    trajectoryData := none
    dashboardData := none
    sceneGraphs := none
    eventsData := none
    vlmData := none }

/-- `updateStep` action: merge the partial update into the named stage's
record, leaving every other field of the store untouched

    updateStep: (step, update) =>
      set((state) => ({
        steps: { ...state.steps, [step]: { ...state.steps[step], ...update } },
      })) -/
def updateStep (step : StepName) (update : StepUpdate) (s : Store) : Store :=
  { s with steps := fun n => if n = step then (s.steps step).merge update else s.steps n }

/-- `reset` action: sets every field of the store back to its initial value. -/
def resetStore (s : Store) : Store :=
  { s with
    runId := none
    connected := false
    pipelineStatus := .idle
    steps := initialSteps
    preprocessData := none
    dinoData := none
    rawDetections := none
    graphData := none
    detections := none
    trajectoryData := none
    dashboardData := none
    sceneGraphs := none
    eventsData := none
    vlmData := none }

/-- One entry of the REST snapshot's `steps` record as `syncStatus` reads it:
`info.status`, `info.progress` (possibly absent), `info.metadata`,
`info.error`. -/
structure StepInfo where
  status : StepStatusType
  progress : Option Rat
  metadata : Option Metadata
  error : Option String
deriving DecidableEq

/-- The REST status snapshot returned by `getPipelineStatus`: overall job
`status` string, optional `current_step`, and the per-stage records (a stage
may be absent from the map, the `!info` check in `syncStatus`). -/
structure Snapshot where
  run_id : String
  status : String
  current_step : Option String
  steps : StepName → Option StepInfo

/-- `STAGGER_MS = 400` in `usePipelineWs.ts`. -/
def STAGGER_MS : Nat := 400

/-- The per-stage filter in the collection loop of `syncStatus`
(lines `const info = data.steps[name] ... pending.push({ name, info })`):
skip an absent entry, a remote `'pending'` state, or an entry already
matching the local record on both `status` and `progress` (note the JS
`current.progress === info.progress` compares a number against a
possibly-absent field, hence the `some` on the local side). -/
def stageDelta (remote : StepName → Option StepInfo) (localSteps : StepName → StepState)
    (name : StepName) : Option (StepName × StepInfo) :=
  match remote name with
  | none => none
  | some info =>
    if info.status = .pending then none
    else if (localSteps name).status = info.status
            ∧ info.progress = some (localSteps name).progress then none
    else some (name, info)

/-- The ordered list of stages `syncStatus` will update: the collection loop
walks `STEP_ORDER` and pushes every stage whose `stageDelta` is present. -/
def pendingList (remote : StepName → Option StepInfo)
    (localSteps : StepName → StepState) : List (StepName × StepInfo) :=
  STEP_ORDER.filterMap (stageDelta remote localSteps)

/-- The partial update `syncStatus` passes to `updateStep` for one snapshot
entry: every key is present in the object literal, and
`progress: info.progress ?? (info.status === 'completed' ? 1 : 0)`. -/
def syncUpdate (info : StepInfo) : StepUpdate :=
  { status := some info.status
    progress := some (info.progress.getD (if info.status = .completed then 1 else 0))
    metadata := some info.metadata
    error := some info.error }

/-- Apply one collected snapshot entry to the store. -/
def applyOne (p : StepName × StepInfo) (s : Store) : Store :=
  updateStep p.1 (syncUpdate p.2) s

/-- Apply the collected entries in order (the body of the stagger loop,
ignoring timing). -/
def applyAll (l : List (StepName × StepInfo)) (s : Store) : Store :=
  l.foldl (fun acc p => applyOne p acc) s

/-- The job-status tail of `syncStatus`:

    if (data.status === 'completed' && getState().pipelineStatus !== 'completed')
      setPipelineStatus('completed')
    else if (data.status === 'error' && getState().pipelineStatus !== 'error')
      setPipelineStatus('error') -/
def applyJobStatus (remote : String) (s : Store) : Store :=
  if remote = "completed" ∧ s.pipelineStatus ≠ .completed then
    { s with pipelineStatus := .completed }
  else if remote = "error" ∧ s.pipelineStatus ≠ .error then
    { s with pipelineStatus := .error }
  else s

/-- End-to-end effect of one `syncStatus` pass on the store when no other
callback interleaves with it: the whole body is wrapped in `try ... catch {}`,
so a failed fetch leaves the store untouched and throws nothing to the
caller; a successful fetch applies the collected deltas in order and then the
job-status tail. The function is total: no error escapes a pass. -/
def syncStatusPure (fetched : Except String Snapshot) (s : Store) : Store :=
  match fetched with
  | .error _ => s
  | .ok data => applyJobStatus data.status (applyAll (pendingList data.steps s.steps) s)

/-- Timing trace of the stagger loop of `syncStatus`: for the `i`-th collected
entry the loop computes `delay = pending.length > 1 ? i * STAGGER_MS : 0` and,
if `delay > 0`, awaits a single `STAGGER_MS` timeout before applying the
entry.  `revealTrace total l i` lists, for each remaining entry, the wait
performed immediately before its application together with the stage applied. -/
def revealTrace (total : Nat) : List (StepName × StepInfo) → Nat → List (Nat × StepName)
  | [], _ => []
  | p :: rest, i =>
    ((if (if total > 1 then i * STAGGER_MS else 0) > 0 then STAGGER_MS else 0), p.1)
      :: revealTrace total rest (i + 1)

/-- A WebSocket message (`WsMessage` in `api/types.ts`): every field optional. -/
structure WsMsg where
  type : Option String
  step : Option String
  status : Option StepStatusType
  progress : Option Rat
  metadata : Option Metadata
  error : Option String
deriving DecidableEq

/-- Decode `msg.step as StepName` guarded by
`if (!step || !STEP_ORDER.includes(step)) return`: the nine stage names map to
their stage, anything else (including the empty string) is rejected. -/
def stepOfString : String → Option StepName
  | "preprocess" => some .preprocess
  | "dino" => some .dino
  | "tracking" => some .tracking
  | "reconstruction" => some .reconstruction
  | "scene_graphs" => some .scene_graphs
  | "graph" => some .graph
  | "events" => some .events
  | "memory" => some .memory
  | "vlm" => some .vlm
  | _ => none

/-- The WS message handler of `usePipelineWs`:
`pipeline_complete` sets the job status to completed directly; `step_status`
with a decodable stage either applies the error fast-path
`updateStep(step, { status: 'error', error: msg.error })` (only the `status`
and `error` keys are present) or the general update whose `progress` key is
`msg.progress ?? (msg.status === 'completed' ? 1 : 0)` and whose `metadata`
and `error` keys are always present (possibly with value `undefined`).
Modelling note: for a malformed `step_status` message whose `status` field is
absent, the JS spread would write `undefined` into the typed `status` slot;
the embedding keeps the typed slot and treats the absent key as retaining the
stored status — no claim concerns that corner. -/
def handler (m : WsMsg) (s : Store) : Store :=
  if m.type = some "pipeline_complete" then
    { s with pipelineStatus := .completed }
  else if m.type = some "step_status" then
    match m.step.bind stepOfString with
    | none => s
    | some stp =>
      if m.status = some .error then
        updateStep stp
          { status := some .error, progress := none, metadata := none
            error := some m.error } s
      else
        updateStep stp
          { status := m.status
            progress := some (m.progress.getD (if m.status = some .completed then 1 else 0))
            metadata := some m.metadata
            error := some m.error } s
  else s

/-- An in-flight `syncStatus` pass, suspended at one of its two `await`
points. `fetching` holds the store state captured by
`const store = usePipelineStore.getState()` at pass entry (the collection
loop later diffs the fetched snapshot against this capture, not against the
live store).  `staggering` is the loop suspended in its
`await setTimeout(STAGGER_MS)` before applying entry `idx`, carrying the
collected list and the snapshot's overall status for the job-status tail. -/
inductive Pass
  | fetching (captured : Store)
  | staggering (pending : List (StepName × StepInfo)) (idx : Nat) (remoteStatus : String)

/-- The event-loop world: the live store, the in-flight passes, and whether
the 2-second poll interval of `usePipelineWs` is still scheduled. -/
structure World where
  store : Store
  passes : List Pass
  intervalActive : Bool

/-- The cooperative event-loop events that drive the sync engine: a poll
tick, a WebSocket message, the upload flow starting a run
(`setRunId` + `setPipelineStatus('running')`, effect re-runs and schedules
the poll), WS open/close (`setConnected`; open also fires an immediate
`syncStatus` pass), the store `reset` (which also tears down the effect for
the old run id: interval cleared, socket closed — but in-flight promises are
not cancellable), and the resolutions of the two `await` points of a pass.
`fetchResolve` carries the environment-chosen fetch outcome. -/
inductive WEvent
  | tick
  | message (m : WsMsg)
  | startRun (id : String)
  | wsOpen
  | wsClose
  | reset
  | fetchResolve (i : Nat) (result : Except String Snapshot)
  | staggerResolve (i : Nat)

/-- Small-step semantics of the event loop.  The poll tick

    if (pipelineStatus === 'completed' || pipelineStatus === 'error' ||
        pipelineStatus === 'idle') { clearInterval(poll); return }
    syncStatus(runId)

starts a pass (capturing the live store) unless the job status is terminal or
idle; nothing consults the in-flight passes.  A resolving fetch computes the
pending list against the pass's captured store and applies updates to the
live store: index 0 immediately (its computed delay is `0`), later indices
each after one stagger await.  `reset` clears the live store and the
interval but leaves in-flight passes to run to completion. -/
def stepWorld : World → WEvent → World
  | w, .tick =>
    if w.intervalActive = false then w
    else if w.store.pipelineStatus = .completed ∨ w.store.pipelineStatus = .error
            ∨ w.store.pipelineStatus = .idle then
      { w with intervalActive := false }
    else
      { w with passes := w.passes ++ [Pass.fetching w.store] }
  | w, .message m => { w with store := handler m w.store }
  | w, .startRun id =>
    { w with store := { w.store with runId := some id, pipelineStatus := .running }
             intervalActive := true }
  | w, .wsOpen =>
    let s := { w.store with connected := true }
    { w with store := s, passes := w.passes ++ [Pass.fetching s] }
  | w, .wsClose => { w with store := { w.store with connected := false } }
  | w, .reset => { w with store := resetStore w.store, intervalActive := false }
  | w, .fetchResolve i result =>
    match w.passes[i]? with
    | some (Pass.fetching captured) =>
      match result with
      | .error _ => { w with passes := w.passes.eraseIdx i }
      | .ok data =>
        match pendingList data.steps captured.steps with
        | [] =>
          { w with store := applyJobStatus data.status w.store
                   passes := w.passes.eraseIdx i }
        | [p] =>
          { w with store := applyJobStatus data.status (applyOne p w.store)
                   passes := w.passes.eraseIdx i }
        | p :: q :: rest =>
          { w with store := applyOne p w.store
                   passes := w.passes.set i (Pass.staggering (p :: q :: rest) 1 data.status) }
    | _ => w
  | w, .staggerResolve i =>
    match w.passes[i]? with
    | some (Pass.staggering pend idx st) =>
      match pend[idx]? with
      | none => w
      | some p =>
        if idx + 1 < pend.length then
          { w with store := applyOne p w.store
                   passes := w.passes.set i (Pass.staggering pend (idx + 1) st) }
        else
          { w with store := applyJobStatus st (applyOne p w.store)
                   passes := w.passes.eraseIdx i }
    | _ => w

/-! Concrete values used by witnesses and counterexamples. -/

/-- A completion update as the push handler would apply it. -/
def completeU : StepUpdate :=
  { status := some .completed, progress := some 1, metadata := none, error := none }

/-- A stale `started` update (progress 0.4) arriving after completion. -/
def regressU : StepUpdate :=
  { status := some .started, progress := some (2/5 : Rat), metadata := none, error := none }

/-- The update built by the handler's error branch for `msg.error = "boom"`:
only the `status` and `error` keys are present. -/
def errU : StepUpdate :=
  { status := some .error, progress := none, metadata := none, error := some (some "boom") }

/-- A store in which the `preprocess` stage has already completed. -/
def storeAfterComplete : Store := updateStep .preprocess completeU initialStore

/-- A store for a freshly started run. -/
def runningStore : Store :=
  { initialStore with runId := some "r1", pipelineStatus := .running }

/-- A snapshot entry for a completed stage carrying `progress: 1`. -/
def completedInfo : StepInfo :=
  { status := .completed, progress := some 1, metadata := none, error := none }

/-- A snapshot entry for a completed stage that omits `progress`. -/
def completedNoProgressInfo : StepInfo :=
  { status := .completed, progress := none, metadata := none, error := none }

/-- The rational 1/2, built by the raw constructor so that kernel reduction
(`decide`) never has to evaluate rational division. -/
def halfProgress : Rat := ⟨1, 2, by decide, Nat.coprime_one_left 2⟩

/-- A `step_status` push message: stage completed, but carrying `progress: 0.5`. -/
def halfDoneMsg : WsMsg :=
  { type := some "step_status", step := some "preprocess", status := some .completed
    progress := some halfProgress, metadata := none, error := none }

/-- A `step_status` push message: stage completed, `progress` field absent. -/
def completeNoProgressMsg : WsMsg :=
  { type := some "step_status", step := some "dino", status := some .completed
    progress := none, metadata := none, error := none }

/-! ## C1 — terminal-state monotonicity of `updateStep` -/

/-- C1 (counterexample): the claim that a terminal stage state can never
regress through `updateStep` is false on the code.  Starting from the initial
store, `updateStep` marks `preprocess` completed; a subsequent stale
`started` update applied through the same `updateStep` changes the stored
state back to `started` — `updateStep` performs a plain merge with no
terminal-state guard. -/
theorem c1_counterexample :
    ((updateStep .preprocess completeU initialStore).steps .preprocess).status
        = .completed ∧
    ((updateStep .preprocess regressU
        (updateStep .preprocess completeU initialStore)).steps .preprocess).status
        = .started := by
  decide

/-- C1 (amended): `updateStep` merges the partial update unconditionally —
whenever the incoming update carries a `status`, the stored state of the
target stage becomes exactly that status, regardless of whether the current
stored state is terminal (`completed`/`error`); no regressing update is
rejected. -/
theorem c1_update_status_overwrites (s : Store) (step : StepName) (u : StepUpdate)
    (st : StepStatusType) (h : u.status = some st) :
    ((updateStep step u s).steps step).status = st := by
  simp [updateStep, StepState.merge, h]

/-- C1 witness: the amended theorem instantiated at a terminal record and a
regressing update. -/
theorem c1_witness :
    regressU.status = some .started ∧
    ((updateStep .preprocess regressU storeAfterComplete).steps .preprocess).status
        = .started :=
  ⟨rfl, c1_update_status_overwrites storeAfterComplete .preprocess regressU .started rfl⟩

/-! ## C10 — frame property of `updateStep` -/

/-- C10: `updateStep step u` changes only the record of stage `step`: every
other stage's record, the run id, the connected flag, the job state and every
fetched-data cache field are unchanged, and within the target record every
field whose key is absent from the partial update retains its previous
value. -/
theorem c10_updateStep_frame (s : Store) (step : StepName) (u : StepUpdate)
    (n : StepName) :
    (n ≠ step → (updateStep step u s).steps n = s.steps n) ∧
    (u.status = none →
      ((updateStep step u s).steps step).status = (s.steps step).status) ∧
    (u.progress = none →
      ((updateStep step u s).steps step).progress = (s.steps step).progress) ∧
    (u.metadata = none →
      ((updateStep step u s).steps step).metadata = (s.steps step).metadata) ∧
    (u.error = none →
      ((updateStep step u s).steps step).error = (s.steps step).error) ∧
    (updateStep step u s).runId = s.runId ∧
    (updateStep step u s).connected = s.connected ∧
    (updateStep step u s).pipelineStatus = s.pipelineStatus ∧
    (updateStep step u s).preprocessData = s.preprocessData ∧
    (updateStep step u s).dinoData = s.dinoData ∧
    (updateStep step u s).rawDetections = s.rawDetections ∧
    (updateStep step u s).graphData = s.graphData ∧
    (updateStep step u s).detections = s.detections ∧
    (updateStep step u s).trajectoryData = s.trajectoryData ∧
    (updateStep step u s).dashboardData = s.dashboardData ∧
    (updateStep step u s).sceneGraphs = s.sceneGraphs ∧
    (updateStep step u s).eventsData = s.eventsData ∧
    (updateStep step u s).vlmData = s.vlmData := by
  refine ⟨fun h => by simp [updateStep, h],
    fun h => by simp [updateStep, StepState.merge, h],
    fun h => by simp [updateStep, StepState.merge, h],
    fun h => by simp [updateStep, StepState.merge, h],
    fun h => by simp [updateStep, StepState.merge, h],
    rfl, rfl, rfl, rfl, rfl, rfl, rfl, rfl, rfl, rfl, rfl, rfl, rfl⟩

/-- C10 witness: an error update carrying only `status` and `error` leaves the
other stages untouched and leaves the target stage's `progress` and
`metadata` unchanged. -/
theorem c10_witness :
    (updateStep .preprocess errU storeAfterComplete).steps .dino
        = storeAfterComplete.steps .dino ∧
    ((updateStep .preprocess errU storeAfterComplete).steps .preprocess).progress
        = (storeAfterComplete.steps .preprocess).progress ∧
    ((updateStep .preprocess errU storeAfterComplete).steps .preprocess).metadata
        = (storeAfterComplete.steps .preprocess).metadata :=
  ⟨(c10_updateStep_frame storeAfterComplete .preprocess errU .dino).1 (by decide),
   (c10_updateStep_frame storeAfterComplete .preprocess errU .dino).2.2.1 rfl,
   (c10_updateStep_frame storeAfterComplete .preprocess errU .dino).2.2.2.1 rfl⟩

/-! ## C6 — progress on completion -/

/-- C6 (counterexample): the claim that a `completed` update always stores
progress exactly 1 regardless of any carried progress value is false on the
code: a push message with `status: 'completed', progress: 0.5` stores 0.5 —
the `??` fallback only fires when the carried progress is absent. -/
theorem c6_counterexample :
    ((handler halfDoneMsg initialStore).steps .preprocess).status = .completed ∧
    ((handler halfDoneMsg initialStore).steps .preprocess).progress = halfProgress ∧
    ¬ ((handler halfDoneMsg initialStore).steps .preprocess).progress = 1 := by
  decide

/-- C6 (amended): on both channels, a `completed` update whose carried
`progress` field is absent stores progress exactly 1 (the
`progress ?? (status === 'completed' ? 1 : 0)` default); a carried value is
stored as-is. -/
theorem c6_progress_defaults_to_one (m : WsMsg) (s : Store) (stp : StepName)
    (info : StepInfo) (n : StepName)
    (ht : m.type = some "step_status") (hd : m.step.bind stepOfString = some stp)
    (hc : m.status = some .completed) (hp : m.progress = none)
    (hic : info.status = .completed) (hip : info.progress = none) :
    ((handler m s).steps stp).progress = 1 ∧
    ((applyOne (n, info) s).steps n).progress = 1 := by
  constructor
  · simp [handler, ht, hd, hc, hp, updateStep, StepState.merge]
  · simp [applyOne, syncUpdate, updateStep, StepState.merge, hic, hip]

/-- C6 witness: the amended theorem at a concrete progress-omitting message
and snapshot entry. -/
theorem c6_witness :
    ((handler completeNoProgressMsg initialStore).steps .dino).progress = 1 ∧
    ((applyOne (.tracking, completedNoProgressInfo) initialStore).steps .tracking).progress
        = 1 :=
  c6_progress_defaults_to_one completeNoProgressMsg initialStore .dino
    completedNoProgressInfo .tracking rfl rfl rfl rfl rfl rfl

/-! ## C4 / C9 — stagger ordering of a reconciliation pass -/

/-- The stages applied by a pass are exactly the collected list, in order. -/
theorem revealTrace_names (total : Nat) (l : List (StepName × StepInfo)) (i : Nat) :
    (revealTrace total l i).map Prod.snd = l.map Prod.fst := by
  induction l generalizing i with
  | nil => rfl
  | cons p rest ih => simp [revealTrace, ih]

/-- From index 1 on, every application of a multi-entry pass is preceded by
exactly one `STAGGER_MS` wait. -/
theorem revealTrace_waits_tail (total : Nat) (htotal : 1 < total)
    (l : List (StepName × StepInfo)) :
    ∀ i, 1 ≤ i →
      (revealTrace total l i).map Prod.fst = List.replicate l.length STAGGER_MS := by
  induction l with
  | nil => intro i _; rfl
  | cons p rest ih =>
    intro i hi
    have hpos : 0 < i * STAGGER_MS := Nat.mul_pos (by omega) (by decide)
    have hdelay : (if total > 1 then i * STAGGER_MS else 0) > 0 := by
      rw [if_pos htotal]; exact hpos
    have hwait :
        (if (if total > 1 then i * STAGGER_MS else 0) > 0 then STAGGER_MS else 0)
          = STAGGER_MS := if_pos hdelay
    simp [revealTrace, hwait, List.replicate_succ, ih (i + 1) (by omega)]

/-- Wait profile of a multi-entry pass: first application immediate, every
later one after exactly one stagger delay. -/
theorem revealTrace_waits (l : List (StepName × StepInfo)) (h : 1 < l.length) :
    (revealTrace l.length l 0).map Prod.fst
      = 0 :: List.replicate (l.length - 1) STAGGER_MS := by
  cases l with
  | nil => simp at h
  | cons p rest =>
    have hwait :
        (if (if (p :: rest).length > 1 then 0 * STAGGER_MS else 0) > 0
          then STAGGER_MS else 0) = 0 := by
      simp
    simp [revealTrace,
      revealTrace_waits_tail (rest.length + 1) (by simpa using h) rest 1 le_rfl]

/-- A `stageDelta` entry is keyed by the stage it was built from. -/
theorem stageDelta_fst (remote : StepName → Option StepInfo)
    (localSteps : StepName → StepState) (a : StepName) (p : StepName × StepInfo)
    (h : stageDelta remote localSteps a = some p) : p.1 = a := by
  cases hr : remote a with
  | none => simp [stageDelta, hr] at h
  | some info =>
    simp only [stageDelta, hr] at h
    split_ifs at h with h1 h2
    injection h with h3
    rw [← h3]

/-- Collecting via `filterMap` with a key-preserving function yields keys
forming a sublist of the walked order. -/
theorem filterMap_fst_sublist {α β : Type} (f : α → Option (α × β))
    (hf : ∀ a p, f a = some p → p.1 = a) (l : List α) :
    ((l.filterMap f).map Prod.fst).Sublist l := by
  induction l with
  | nil => simp
  | cons a t ih =>
    cases hfa : f a with
    | none =>
      rw [List.filterMap_cons, hfa]
      exact ih.cons a
    | some p =>
      rw [List.filterMap_cons, hfa, List.map_cons, hf a p hfa]
      exact ih.cons₂ a

/-- The stages a pass updates appear in fixed pipeline order. -/
theorem pendingList_names_sublist (remote : StepName → Option StepInfo)
    (localSteps : StepName → StepState) :
    ((pendingList remote localSteps).map Prod.fst).Sublist STEP_ORDER :=
  filterMap_fst_sublist _ (stageDelta_fst remote localSteps) STEP_ORDER

/-- C4: whenever a reconciliation pass collects more than one stage, the
updates are applied one at a time in fixed pipeline order (the collected
stage names form a sublist of `STEP_ORDER` and the applications follow the
collected order), the first immediately and each later one after exactly one
positive `STAGGER_MS` delay — never simultaneously. -/
theorem c4_catchup_stagger (remote : StepName → Option StepInfo)
    (localSteps : StepName → StepState)
    (h : 1 < (pendingList remote localSteps).length) :
    ((pendingList remote localSteps).map Prod.fst).Sublist STEP_ORDER ∧
    (revealTrace (pendingList remote localSteps).length
        (pendingList remote localSteps) 0).map Prod.snd
      = (pendingList remote localSteps).map Prod.fst ∧
    (revealTrace (pendingList remote localSteps).length
        (pendingList remote localSteps) 0).map Prod.fst
      = 0 :: List.replicate ((pendingList remote localSteps).length - 1) STAGGER_MS ∧
    0 < STAGGER_MS :=
  ⟨pendingList_names_sublist _ _, revealTrace_names _ _ _,
   revealTrace_waits _ h, by decide⟩

/-- A snapshot in which exactly stages 2, 5 and 7 of the nine (dino,
scene_graphs, events) are newly completed. -/
def catchupRemote : StepName → Option StepInfo :=
  fun n =>
    match n with
    | .dino => some completedInfo
    | .scene_graphs => some completedInfo
    | .events => some completedInfo
    | _ => none

/-- C4 witness: the stagger theorem instantiated at the spec's 2-5-7
catch-up snapshot against the all-pending table. -/
theorem c4_witness :
    1 < (pendingList catchupRemote initialSteps).length ∧
    (((pendingList catchupRemote initialSteps).map Prod.fst).Sublist STEP_ORDER ∧
     (revealTrace (pendingList catchupRemote initialSteps).length
         (pendingList catchupRemote initialSteps) 0).map Prod.snd
       = (pendingList catchupRemote initialSteps).map Prod.fst ∧
     (revealTrace (pendingList catchupRemote initialSteps).length
         (pendingList catchupRemote initialSteps) 0).map Prod.fst
       = 0 :: List.replicate ((pendingList catchupRemote initialSteps).length - 1)
           STAGGER_MS ∧
     0 < STAGGER_MS) :=
  ⟨by decide, c4_catchup_stagger catchupRemote initialSteps (by decide)⟩

/-- C9: when a reconciliation pass collects exactly one stage, that update is
applied immediately — the wait before the single application is zero. -/
theorem c9_single_update_fast_path (remote : StepName → Option StepInfo)
    (localSteps : StepName → StepState)
    (h : (pendingList remote localSteps).length = 1) :
    (revealTrace (pendingList remote localSteps).length
        (pendingList remote localSteps) 0).map Prod.fst = [0] ∧
    (revealTrace (pendingList remote localSteps).length
        (pendingList remote localSteps) 0).map Prod.snd
      = (pendingList remote localSteps).map Prod.fst := by
  obtain ⟨p, hp⟩ := List.length_eq_one.mp h
  refine ⟨?_, revealTrace_names _ _ _⟩
  rw [h, hp]
  simp [revealTrace]

/-- A snapshot in which exactly one stage (preprocess) changed. -/
def singleRemote : StepName → Option StepInfo :=
  fun n =>
    match n with
    | .preprocess => some completedInfo
    | _ => none

/-- A full snapshot object around `singleRemote`. -/
def snapSingle : Snapshot :=
  { run_id := "r1", status := "running", current_step := none, steps := singleRemote }

/-- A snapshot whose only non-pending entry is completed but omits
`progress`. -/
def noProgressRemote : StepName → Option StepInfo :=
  fun n =>
    match n with
    | .preprocess => some completedNoProgressInfo
    | _ => none

/-- A full snapshot object around `noProgressRemote`. -/
def snapNoProgress : Snapshot :=
  { run_id := "r1", status := "running", current_step := none, steps := noProgressRemote }

/-- C9 witness: the fast-path theorem at a single-change snapshot. -/
theorem c9_witness :
    (pendingList singleRemote initialSteps).length = 1 ∧
    ((revealTrace (pendingList singleRemote initialSteps).length
        (pendingList singleRemote initialSteps) 0).map Prod.fst = [0] ∧
     (revealTrace (pendingList singleRemote initialSteps).length
        (pendingList singleRemote initialSteps) 0).map Prod.snd
       = (pendingList singleRemote initialSteps).map Prod.fst) :=
  ⟨by decide, c9_single_update_fast_path singleRemote initialSteps (by decide)⟩

/-! ## C5 — snapshot idempotence -/

/-- Applying one collected entry leaves every other stage's record alone. -/
theorem applyOne_steps_ne (p : StepName × StepInfo) (s : Store) (n : StepName)
    (h : n ≠ p.1) : (applyOne p s).steps n = s.steps n := by
  simp [applyOne, updateStep, h]

/-- Applying one collected entry merges `syncUpdate` into the target record. -/
theorem applyOne_steps_eq (n : StepName) (j : StepInfo) (s : Store) :
    (applyOne (n, j) s).steps n = (s.steps n).merge (syncUpdate j) := by
  simp [applyOne, updateStep]

/-- A stage absent from the collected list is untouched by the apply loop. -/
theorem applyAll_steps_notMem (l : List (StepName × StepInfo)) (s : Store)
    (n : StepName) (h : n ∉ l.map Prod.fst) :
    (applyAll l s).steps n = s.steps n := by
  induction l generalizing s with
  | nil => rfl
  | cons p t ih =>
    simp only [List.map_cons, List.mem_cons, not_or] at h
    exact (ih (applyOne p s) h.2).trans (applyOne_steps_ne p s n h.1)

/-- With pairwise-distinct stage names, a stage present in the collected list
ends up as its single merge. -/
theorem applyAll_steps_mem (l : List (StepName × StepInfo)) (s : Store)
    (n : StepName) (j : StepInfo) (hnd : (l.map Prod.fst).Nodup)
    (hmem : (n, j) ∈ l) :
    (applyAll l s).steps n = (s.steps n).merge (syncUpdate j) := by
  induction l generalizing s with
  | nil => cases hmem
  | cons p t ih =>
    simp only [List.map_cons, List.nodup_cons] at hnd
    rcases List.mem_cons.mp hmem with heq | hmem2
    · have hnt : n ∉ t.map Prod.fst := by
        have h1 := hnd.1
        rw [← heq] at h1
        exact h1
      have : (applyAll (p :: t) s).steps n = (applyOne p s).steps n :=
        applyAll_steps_notMem t (applyOne p s) n hnt
      rw [this, ← heq, applyOne_steps_eq]
    · have hne : n ≠ p.1 := by
        intro hcon
        exact hnd.1 (hcon ▸ List.mem_map_of_mem Prod.fst hmem2)
      have : (applyAll (p :: t) s).steps n
          = ((applyOne p s).steps n).merge (syncUpdate j) :=
        ih (applyOne p s) hnd.2 hmem2
      rw [this, applyOne_steps_ne p s n hne]

/-- The apply loop never touches the job status. -/
theorem applyAll_pipelineStatus (l : List (StepName × StepInfo)) (s : Store) :
    (applyAll l s).pipelineStatus = s.pipelineStatus := by
  induction l generalizing s with
  | nil => rfl
  | cons p t ih => exact (ih (applyOne p s)).trans rfl

/-- The job-status tail never touches the stage records. -/
theorem applyJobStatus_steps (r : String) (s : Store) :
    (applyJobStatus r s).steps = s.steps := by
  unfold applyJobStatus
  split_ifs <;> rfl

/-- The job-status tail is idempotent (the `!==` comparisons make the second
application a no-op). -/
theorem applyJobStatus_idem (r : String) (s : Store) :
    applyJobStatus r (applyJobStatus r s) = applyJobStatus r s := by
  unfold applyJobStatus
  split_ifs <;> simp_all

/-- Every stage is walked by the collection loop. -/
theorem mem_STEP_ORDER (n : StepName) : n ∈ STEP_ORDER := by
  cases n <;> decide

/-- The pipeline order is duplicate-free. -/
theorem STEP_ORDER_nodup : STEP_ORDER.Nodup := by decide

/-- Membership in the collected list is exactly a present `stageDelta`. -/
theorem mem_pendingList (remote : StepName → Option StepInfo)
    (localSteps : StepName → StepState) (p : StepName × StepInfo) :
    p ∈ pendingList remote localSteps ↔ stageDelta remote localSteps p.1 = some p := by
  unfold pendingList
  rw [List.mem_filterMap]
  constructor
  · rintro ⟨a, _, ha⟩
    rw [stageDelta_fst remote localSteps a p ha]
    exact ha
  · intro h
    exact ⟨p.1, mem_STEP_ORDER p.1, h⟩

/-- The collected stage names are pairwise distinct. -/
theorem pendingList_names_nodup (remote : StepName → Option StepInfo)
    (localSteps : StepName → StepState) :
    ((pendingList remote localSteps).map Prod.fst).Nodup :=
  (pendingList_names_sublist remote localSteps).nodup STEP_ORDER_nodup

/-- For a present remote entry, `stageDelta` is either absent or keyed by the
stage with exactly that entry. -/
theorem stageDelta_cases (remote : StepName → Option StepInfo)
    (localSteps : StepName → StepState) (a : StepName) (info : StepInfo)
    (hr : remote a = some info) :
    stageDelta remote localSteps a = none
      ∨ stageDelta remote localSteps a = some (a, info) := by
  simp only [stageDelta, hr]
  split_ifs <;> simp

/-- An absent `stageDelta` for a present non-pending entry means the skip
comparison held. -/
theorem stageDelta_none_skip (remote : StepName → Option StepInfo)
    (localSteps : StepName → StepState) (a : StepName) (info : StepInfo)
    (hr : remote a = some info) (hpend : ¬ info.status = .pending)
    (h : stageDelta remote localSteps a = none) :
    (localSteps a).status = info.status
      ∧ info.progress = some ((localSteps a).progress) := by
  simp only [stageDelta, hr, if_neg hpend] at h
  by_cases hs : (localSteps a).status = info.status
      ∧ info.progress = some ((localSteps a).progress)
  · exact hs
  · rw [if_neg hs] at h
    cases h

/-- C5 (amended): a second reconciliation pass over an unchanged snapshot is a
complete no-op provided every non-pending snapshot entry carries a `progress`
value: its skip check then filters out every stage (the collected list is
empty) and the pass maps the store to itself.  (The counterexample shows the
proviso is needed: an entry omitting `progress` is re-collected on every
pass, because the skip comparison tests the stored number against the absent
field.) -/
theorem c5_snapshot_idempotent (S : Snapshot) (s0 : Store)
    (H : ∀ n, ∀ info ∈ S.steps n, info.status ≠ .pending → info.progress ≠ none) :
    pendingList S.steps (syncStatusPure (Except.ok S) s0).steps = [] ∧
    syncStatusPure (Except.ok S) (syncStatusPure (Except.ok S) s0)
      = syncStatusPure (Except.ok S) s0 := by
  have hsteps : ∀ n, (syncStatusPure (Except.ok S) s0).steps n
      = (applyAll (pendingList S.steps s0.steps) s0).steps n := by
    intro n
    show (applyJobStatus S.status (applyAll (pendingList S.steps s0.steps) s0)).steps n
      = (applyAll (pendingList S.steps s0.steps) s0).steps n
    rw [applyJobStatus_steps]
  have hempty : pendingList S.steps (syncStatusPure (Except.ok S) s0).steps = [] := by
    unfold pendingList
    rw [List.filterMap_eq_nil_iff]
    intro a _
    cases hr : S.steps a with
    | none => simp [stageDelta, hr]
    | some info =>
      by_cases hpend : info.status = .pending
      · simp [stageDelta, hr, hpend]
      · have hprog : info.progress ≠ none :=
          H a info (by rw [hr]; exact rfl) hpend
        obtain ⟨q, hq⟩ := Option.ne_none_iff_exists'.mp hprog
        have hskip : ((syncStatusPure (Except.ok S) s0).steps a).status = info.status
            ∧ info.progress = some (((syncStatusPure (Except.ok S) s0).steps a).progress) := by
          rw [hsteps a]
          rcases stageDelta_cases S.steps s0.steps a info hr with hδ | hδ
          · have hnotmem : a ∉ (pendingList S.steps s0.steps).map Prod.fst := by
              intro hmem
              obtain ⟨p, hp, hpa⟩ := List.mem_map.mp hmem
              have hsome := (mem_pendingList S.steps s0.steps p).mp hp
              rw [hpa, hδ] at hsome
              cases hsome
            rw [applyAll_steps_notMem _ _ _ hnotmem]
            exact stageDelta_none_skip S.steps s0.steps a info hr hpend hδ
          · have hmem : (a, info) ∈ pendingList S.steps s0.steps :=
              (mem_pendingList S.steps s0.steps (a, info)).mpr hδ
            rw [applyAll_steps_mem _ _ _ _ (pendingList_names_nodup _ _) hmem]
            constructor
            · simp [StepState.merge, syncUpdate]
            · simp [StepState.merge, syncUpdate, hq]
        simp [stageDelta, hr, hpend, hskip.1, hskip.2]
  refine ⟨hempty, ?_⟩
  show applyJobStatus S.status
      (applyAll (pendingList S.steps (syncStatusPure (Except.ok S) s0).steps)
        (syncStatusPure (Except.ok S) s0))
    = syncStatusPure (Except.ok S) s0
  rw [hempty]
  show applyJobStatus S.status (syncStatusPure (Except.ok S) s0)
    = syncStatusPure (Except.ok S) s0
  show applyJobStatus S.status
      (applyJobStatus S.status (applyAll (pendingList S.steps s0.steps) s0))
    = applyJobStatus S.status (applyAll (pendingList S.steps s0.steps) s0)
  exact applyJobStatus_idem _ _

/-- C5 witness: the amended idempotence theorem at a concrete snapshot whose
single changed entry carries `progress: 1`. -/
theorem c5_witness :
    (∀ n, ∀ info ∈ snapSingle.steps n,
        info.status ≠ .pending → info.progress ≠ none) ∧
    (pendingList snapSingle.steps
        (syncStatusPure (Except.ok snapSingle) runningStore).steps = [] ∧
     syncStatusPure (Except.ok snapSingle)
        (syncStatusPure (Except.ok snapSingle) runningStore)
       = syncStatusPure (Except.ok snapSingle) runningStore) :=
  ⟨by decide, c5_snapshot_idempotent snapSingle runningStore (by decide)⟩

/-- C5 (counterexample): the claim that the skip check filters out every
stage on a repeated identical snapshot — including stages whose snapshot
entry omits `progress` — is false on the code: after one pass over a
snapshot whose completed `preprocess` entry omits `progress`, a second pass
over the same snapshot collects `preprocess` again (the store holds progress
1 while the snapshot field is absent, so `current.progress === info.progress`
fails) and therefore performs another `updateStep` mutation. -/
theorem c5_counterexample :
    pendingList snapNoProgress.steps
        (syncStatusPure (Except.ok snapNoProgress) runningStore).steps
      = [(.preprocess, completedNoProgressInfo)] ∧
    pendingList snapNoProgress.steps
        (syncStatusPure (Except.ok snapNoProgress) runningStore).steps ≠ [] := by
  decide

/-! ## C7 — fetch-failure containment -/

/-- A world with a freshly started run: live polling, no pass in flight. -/
def wRun : World := { store := runningStore, passes := [], intervalActive := true }

/-- C7: a failed snapshot fetch is fully contained: `syncStatus` is a total
function whose failure case returns the store unchanged (the `try/catch`
swallows the error, so nothing propagates to the caller), resolving the
failed fetch mutates no stage record and no job state, the poll interval
stays scheduled, and the next tick starts a fresh pass (the retry). -/
theorem c7_fetch_failure_contained (w : World) (i : Nat) (e : String) (s : Store)
    (h1 : w.intervalActive = true) (h2 : w.store.pipelineStatus = .running) :
    syncStatusPure (Except.error e) s = s ∧
    (stepWorld w (WEvent.fetchResolve i (Except.error e))).store = w.store ∧
    (stepWorld w (WEvent.fetchResolve i (Except.error e))).intervalActive = true ∧
    (stepWorld (stepWorld w (WEvent.fetchResolve i (Except.error e)))
        WEvent.tick).passes.length
      = (stepWorld w (WEvent.fetchResolve i (Except.error e))).passes.length + 1 := by
  have hcase : stepWorld w (WEvent.fetchResolve i (Except.error e)) = w ∨
      stepWorld w (WEvent.fetchResolve i (Except.error e))
        = { w with passes := w.passes.eraseIdx i } := by
    cases hp : w.passes[i]? with
    | none => left; simp [stepWorld, hp]
    | some pa =>
      cases pa with
      | fetching cap => right; simp [stepWorld, hp]
      | staggering pend idx st => left; simp [stepWorld, hp]
  rcases hcase with hc | hc <;> rw [hc]
  · exact ⟨rfl, rfl, h1, by simp [stepWorld, h1, h2]⟩
  · exact ⟨rfl, rfl, h1, by simp [stepWorld, h1, h2]⟩

/-- C7 witness: the containment theorem at a running world and a concrete
network error. -/
theorem c7_witness :
    wRun.intervalActive = true ∧ wRun.store.pipelineStatus = .running ∧
    (syncStatusPure (Except.error "network error") initialStore = initialStore ∧
     (stepWorld wRun (WEvent.fetchResolve 0 (Except.error "network error"))).store
       = wRun.store ∧
     (stepWorld wRun (WEvent.fetchResolve 0 (Except.error "network error"))).intervalActive
       = true ∧
     (stepWorld (stepWorld wRun (WEvent.fetchResolve 0 (Except.error "network error")))
         WEvent.tick).passes.length
       = (stepWorld wRun (WEvent.fetchResolve 0 (Except.error "network error"))).passes.length
           + 1) :=
  ⟨rfl, rfl, c7_fetch_failure_contained wRun 0 "network error" initialStore rfl rfl⟩

/-! ## C3 — overlapping reconciliation passes -/

/-- A snapshot in which two stages (preprocess, dino) are newly completed. -/
def snapTwo : Snapshot :=
  { run_id := "r1", status := "running", current_step := none
    steps := fun n =>
      match n with
      | .preprocess => some completedInfo
      | .dino => some completedInfo
      | _ => none }

/-- C3 (counterexample): the claim that at most one reconciliation pass is
ever in flight is false on the code: starting from a running world, a tick
starts a pass, its fetch resolves to a two-stage catch-up (the pass stays in
flight, suspended in its stagger delay), and a second tick — which only
checks `pipelineStatus`, never the in-flight pass — starts a second
concurrent pass: two passes are in flight at once. -/
theorem c3_counterexample :
    (stepWorld (stepWorld wRun WEvent.tick)
        (WEvent.fetchResolve 0 (Except.ok snapTwo))).passes.length = 1 ∧
    (stepWorld (stepWorld (stepWorld wRun WEvent.tick)
        (WEvent.fetchResolve 0 (Except.ok snapTwo))) WEvent.tick).passes.length = 2 := by
  decide

/-- C3 (amended): the poll tick serializes nothing: whenever the interval is
scheduled and the job status is `running`, a tick unconditionally starts a
new reconciliation pass, regardless of any pass still in flight — the only
guard in the tick is the terminal/idle check on `pipelineStatus`, so passes
whose stagger delays outlive the 2-second interval overlap. -/
theorem c3_tick_starts_pass_unconditionally (w : World)
    (h1 : w.intervalActive = true) (h2 : w.store.pipelineStatus = .running) :
    stepWorld w WEvent.tick = { w with passes := w.passes ++ [Pass.fetching w.store] } := by
  simp [stepWorld, h1, h2]

/-- A running world with a pass suspended mid-stagger. -/
def wMidStagger : World :=
  { store := runningStore
    passes := [Pass.staggering
      [(StepName.preprocess, completedInfo), (StepName.dino, completedInfo)] 1 "running"]
    intervalActive := true }

/-- C3 witness: a tick fired while a pass sits in its stagger delay starts a
second pass anyway. -/
theorem c3_witness :
    wMidStagger.intervalActive = true ∧
    wMidStagger.store.pipelineStatus = .running ∧
    stepWorld wMidStagger WEvent.tick
      = { wMidStagger with
          passes := wMidStagger.passes ++ [Pass.fetching wMidStagger.store] } :=
  ⟨rfl, rfl, c3_tick_starts_pass_unconditionally wMidStagger rfl rfl⟩

/-! ## C2 — reset isolation -/

/-- A snapshot reporting `preprocess` completed and the whole job completed. -/
def snapDone : Snapshot :=
  { run_id := "r1", status := "completed", current_step := none, steps := singleRemote }

/-- C2 (counterexample): the claim that a pass whose fetch began before a
reset has no effect after the reset is false on the code: a tick starts a
pass against the running store, the reset then clears the table
(`preprocess` back to `pending`, job `idle`), and when the stale fetch
resolves it writes straight into the post-reset store — `preprocess` becomes
`completed` and the job status of the fresh session becomes `completed`. -/
theorem c2_counterexample :
    (((stepWorld (stepWorld wRun WEvent.tick) WEvent.reset).store.steps
        StepName.preprocess).status = .pending ∧
     (stepWorld (stepWorld wRun WEvent.tick) WEvent.reset).store.pipelineStatus
       = .idle) ∧
    (((stepWorld (stepWorld (stepWorld wRun WEvent.tick) WEvent.reset)
        (WEvent.fetchResolve 0 (Except.ok snapDone))).store.steps
          StepName.preprocess).status = .completed ∧
     (stepWorld (stepWorld (stepWorld wRun WEvent.tick) WEvent.reset)
        (WEvent.fetchResolve 0 (Except.ok snapDone))).store.pipelineStatus
       = .completed) := by
  decide

/-- C2 (amended): `reset` clears the live store and stops the scheduler but
does not cancel in-flight passes (`(stepWorld w reset).passes = w.passes`);
when the stale fetch of such a pass later resolves, its diff — computed
against the pass's captured pre-reset table — is applied to whatever store is
live at resolution time, i.e. the post-reset one. -/
theorem c2_stale_pass_writes_live_store (w : World) (i : Nat) (cap : Store)
    (d : Snapshot) (p : StepName × StepInfo)
    (hp : w.passes[i]? = some (Pass.fetching cap))
    (hpend : pendingList d.steps cap.steps = [p]) :
    (stepWorld w WEvent.reset).passes = w.passes ∧
    (stepWorld w (WEvent.fetchResolve i (Except.ok d))).store
      = applyJobStatus d.status (applyOne p w.store) := by
  refine ⟨rfl, ?_⟩
  simp [stepWorld, hp, hpend]

/-- A post-reset world still holding a pass that captured the pre-reset
(running, all-pending) store. -/
def wStale : World :=
  { store := initialStore, passes := [Pass.fetching runningStore], intervalActive := false }

/-- C2 witness: the stale-pass theorem at the concrete post-reset world. -/
theorem c2_witness :
    wStale.passes[0]? = some (Pass.fetching runningStore) ∧
    pendingList snapDone.steps runningStore.steps
      = [(StepName.preprocess, completedInfo)] ∧
    ((stepWorld wStale WEvent.reset).passes = wStale.passes ∧
     (stepWorld wStale (WEvent.fetchResolve 0 (Except.ok snapDone))).store
       = applyJobStatus snapDone.status
           (applyOne (StepName.preprocess, completedInfo) wStale.store)) :=
  ⟨rfl, by decide,
   c2_stale_pass_writes_live_store wStale 0 runningStore snapDone
     (StepName.preprocess, completedInfo) rfl (by decide)⟩

/-! ## C8 — terminal job derivation -/

/-- The explicit completion signals: a `pipeline_complete` push message, a
resolving fetch whose snapshot's overall status field is `completed`, or the
final stagger of a pass whose snapshot reported overall status `completed`. -/
def explicitCompletion (w : World) : WEvent → Prop
  | .message m => m.type = some "pipeline_complete"
  | .fetchResolve _ r => ∃ d, r = Except.ok d ∧ d.status = "completed"
  | .staggerResolve i =>
    ∃ pend idx, w.passes[i]? = some (Pass.staggering pend idx "completed")
  | _ => False

/-- The job-status tail marks the job completed only if it already was or the
snapshot's overall status field says `completed`. -/
theorem applyJobStatus_completed (r : String) (s : Store)
    (h : (applyJobStatus r s).pipelineStatus = .completed) :
    s.pipelineStatus = .completed ∨ r = "completed" := by
  unfold applyJobStatus at h
  split_ifs at h with h1 h2
  · right
    exact h1.1
  · left
    exact h

/-- The push handler marks the job completed only if it already was or the
message is an explicit `pipeline_complete`. -/
theorem handler_pipelineStatus (m : WsMsg) (s : Store)
    (h : (handler m s).pipelineStatus = .completed) :
    s.pipelineStatus = .completed ∨ m.type = some "pipeline_complete" := by
  by_cases h1 : m.type = some "pipeline_complete"
  · right
    exact h1
  · left
    unfold handler at h
    rw [if_neg h1] at h
    by_cases h2 : m.type = some "step_status"
    · rw [if_pos h2] at h
      cases hd : m.step.bind stepOfString with
      | none =>
        simp only [hd] at h
        exact h
      | some stp =>
        simp only [hd] at h
        split_ifs at h <;> exact h
    · rw [if_neg h2] at h
      exact h

/-- C8: across every event of the modelled system, the job status becomes
`completed` only through an explicit completion signal — a
`pipeline_complete` push message or a snapshot whose overall `status` field
is `completed` — never from the per-stage states (no event that merely
updates stage records changes the job status to completed). -/
theorem c8_completed_only_on_explicit_signal (w : World) (e : WEvent)
    (h : (stepWorld w e).store.pipelineStatus = .completed) :
    w.store.pipelineStatus = .completed ∨ explicitCompletion w e := by
  cases e with
  | tick =>
    left
    simp only [stepWorld] at h
    split_ifs at h <;> exact h
  | message m =>
    rcases handler_pipelineStatus m w.store h with h1 | h1
    · left; exact h1
    · right; exact h1
  | startRun id =>
    exact absurd h (by simp [stepWorld])
  | wsOpen => left; exact h
  | wsClose => left; exact h
  | reset =>
    exact absurd h (by simp [stepWorld, resetStore])
  | fetchResolve i r =>
    simp only [stepWorld] at h
    cases hp : w.passes[i]? with
    | none =>
      simp only [hp] at h
      left; exact h
    | some pa =>
      cases pa with
      | staggering pend idx st =>
        simp only [hp] at h
        left; exact h
      | fetching cap =>
        simp only [hp] at h
        cases r with
        | error msg => left; exact h
        | ok d =>
          cases hpend : pendingList d.steps cap.steps with
          | nil =>
            simp only [hpend] at h
            rcases applyJobStatus_completed d.status w.store h with h1 | h1
            · left; exact h1
            · right; exact ⟨d, rfl, h1⟩
          | cons p rest =>
            cases rest with
            | nil =>
              simp only [hpend] at h
              rcases applyJobStatus_completed d.status (applyOne p w.store) h with h1 | h1
              · left; exact h1
              · right; exact ⟨d, rfl, h1⟩
            | cons q rest2 =>
              simp only [hpend] at h
              left; exact h
  | staggerResolve i =>
    simp only [stepWorld] at h
    cases hp : w.passes[i]? with
    | none =>
      simp only [hp] at h
      left; exact h
    | some pa =>
      cases pa with
      | fetching cap =>
        simp only [hp] at h
        left; exact h
      | staggering pend idx st =>
        simp only [hp] at h
        cases hq : pend[idx]? with
        | none =>
          simp only [hq] at h
          left; exact h
        | some p =>
          simp only [hq] at h
          by_cases hlt : idx + 1 < pend.length
          · rw [if_pos hlt] at h
            left; exact h
          · rw [if_neg hlt] at h
            rcases applyJobStatus_completed st (applyOne p w.store) h with h1 | h1
            · left; exact h1
            · right
              refine ⟨pend, idx, ?_⟩
              rw [hp, h1]

/-- A `pipeline_complete` push message. -/
def completeMsg : WsMsg :=
  { type := some "pipeline_complete", step := none, status := none
    progress := none, metadata := none, error := none }

/-- C8 witness: the derivation theorem at a running world receiving an
explicit `pipeline_complete` message. -/
theorem c8_witness :
    (stepWorld wRun (WEvent.message completeMsg)).store.pipelineStatus = .completed ∧
    (wRun.store.pipelineStatus = .completed ∨
     explicitCompletion wRun (WEvent.message completeMsg)) :=
  ⟨by decide,
   c8_completed_only_on_explicit_signal wRun (WEvent.message completeMsg) (by decide)⟩

end PipelineSync
